import Mathlib

/-!
# Signed-message verification (`signature/verify.go`)

A shallow embedding of `VerifyBTCSignature`, `VerifyWithChain`,
`GeneratePublicKeyHash` and `Contains`.

The elliptic-curve primitive, the hash primitives, the address codec, the
base64 codec and the helpers of the package that live in other files (flag
tables, `GetKeyID`, `ShouldBeCompressed`, `CreateMagicMessage`, `Verify`,
`ValidateP2PKH`, `ValidateP2SH`, `ValidateP2WPKH`, `ValidateP2TR`) are the
fields of `Env`. The general theorems quantify over them; the examples are
evaluated in `exampleEnv`, whose base64 decoder is a transcription of the one
of the Go standard library.

The self-recursive call of `VerifyBTCSignature` is modelled with a budget of
calls: `VerifyBTCSignature env n` runs at most `n` nested calls and yields
`none` when the budget does not suffice.
-/

namespace Signature

/-! ## Go values -/

/-- Go `error` values that the function builds or passes along. -/
inductive GoError where
  /-- Result of `errors.New(s)` and of `fmt.Errorf` without a `%w` verb. -/
  | errorString (s : String)
  /-- Result of `fmt.Errorf` with one `%w` verb: the formatted text and the wrapped error. -/
  | wrapError (msg : String) (err : GoError)
  /-- Value `base64.CorruptInputError(n)`. -/
  | CorruptInputError (n : Nat)
  deriving DecidableEq, Repr

/-- Method `Error()` of a Go error. -/
def GoError.Error : GoError → String
  | .errorString s => s
  | .wrapError msg _ => msg
  | .CorruptInputError n => "illegal base64 data at input byte " ++ toString n

/-- Call `fmt.Errorf(text + "%w", err)`. -/
def Errorf_w (text : String) (err : GoError) : GoError :=
  .wrapError (text ++ err.Error) err

/-- Network parameters (`chaincfg.Params`), reduced to the fields an address depends on. -/
structure Params where
  Name : String
  PubKeyHashAddrID : Nat
  ScriptHashAddrID : Nat
  Bech32HRPSegwit : String
  deriving DecidableEq, Repr

def MainNetParams : Params := ⟨"mainnet", 0x00, 0x05, "bc"⟩

def TestNet3Params : Params := ⟨"testnet3", 0x6f, 0xc4, "tb"⟩

/-- Dynamic types of the `btcutil.Address` values that `btcutil.DecodeAddress` returns. -/
inductive Address where
  | AddressPubKeyHash (hash : List Nat) (netID : Nat)
  | AddressScriptHash (hash : List Nat) (netID : Nat)
  | AddressWitnessPubKeyHash (hrp : String) (witnessProgram : List Nat)
  | AddressTaproot (hrp : String) (witnessProgram : List Nat)
  | AddressWitnessScriptHash (hrp : String) (witnessProgram : List Nat)
  | AddressPubKey (serialized : List Nat) (pubKeyHashID : Nat)
  deriving DecidableEq, Repr

/-- Text of `reflect.TypeOf(address)`. -/
def Address.typeName : Address → String
  | .AddressPubKeyHash .. => "*btcutil.AddressPubKeyHash"
  | .AddressScriptHash .. => "*btcutil.AddressScriptHash"
  | .AddressWitnessPubKeyHash .. => "*btcutil.AddressWitnessPubKeyHash"
  | .AddressTaproot .. => "*btcutil.AddressTaproot"
  | .AddressWitnessScriptHash .. => "*btcutil.AddressWitnessScriptHash"
  | .AddressPubKey .. => "*btcutil.AddressPubKey"

/-- A point of the curve (`btcec.PublicKey`). -/
structure PublicKey where
  X : Nat
  Y : Nat
  deriving DecidableEq, Repr

/-- SignedMessage is the representation of verification request. -/
structure SignedMessage where
  Address : String
  Message : String
  Signature : String
  deriving DecidableEq, Repr

def ExpectedSignatureLength : Nat := 65

def CompressedRecoveryFlag : Nat := 31

def UncompressedRecoveryFlag : Nat := 27

/-- Bytes of a Go string (its UTF-8 encoding). -/
def stringBytes (s : String) : List Nat :=
  (s.toList.flatMap String.utf8EncodeChar).map UInt8.toNat

/-! ## Collaborators that are not part of `verify.go` -/

/-- Functions and tables that `verify.go` calls and does not define. -/
structure Env where
  /-- Function `btcutil.DecodeAddress`. -/
  DecodeAddress : String → Params → Except GoError Address
  /-- Function `base64.StdEncoding.DecodeString`: the decoded bytes and the error. -/
  DecodeString : String → List Nat × Option GoError
  /-- Table `All()` of the recognised recovery flags. -/
  All : List Int
  /-- Table `Trezor()`. -/
  Trezor : List Int
  /-- Table `Uncompressed()`. -/
  Uncompressed : List Int
  GetKeyID : Int → Int
  ShouldBeCompressed : Int → Bool
  CreateMagicMessage : String → String
  /-- Function `chainhash.DoubleHashB`. -/
  DoubleHashB : List Nat → List Nat
  /-- Function `ecdsa.RecoverCompact`: the key and whether it was compressed. -/
  RecoverCompact : List Nat → List Nat → Except GoError (PublicKey × Bool)
  /-- Function `Verify` of the package (signature against key and digest). -/
  Verify : List Nat → PublicKey → List Nat → Option GoError
  /-- Function `btcutil.Hash160`. -/
  Hash160 : List Nat → List Nat
  SerializeUncompressed : PublicKey → List Nat
  SerializeCompressed : PublicKey → List Nat
  ValidateP2PKH : Int → List Nat → Address → Params → Bool × Option GoError
  ValidateP2SH : Int → List Nat → Address → Params → Bool × Option GoError
  ValidateP2WPKH : Int → List Nat → Address → Params → Bool × Option GoError
  ValidateP2TR : Int → PublicKey → Address → Params → Bool × Option GoError

/-! ## `verify.go` -/

/-- Function `Contains` (verify.go:160). -/
def Contains : List Int → Int → Bool
  | [], _ => false
  | item :: rest, val => if item == val then true else Contains rest val

/-- GeneratePublicKeyHash returns the public key hash, either compressed or
uncompressed, depending on the recovery flag (verify.go:152). -/
def GeneratePublicKeyHash (env : Env) (recoveryFlag : Int) (publicKey : PublicKey) : List Nat :=
  if Contains env.Uncompressed recoveryFlag then
    env.Hash160 (env.SerializeUncompressed publicKey)
  else
    env.Hash160 (env.SerializeCompressed publicKey)

/-- First type switch (verify.go:49-61): the header byte written for the
address kind, `none` in the `default` branch. -/
def baseFlag : Address → Option Nat
  | .AddressPubKeyHash .. => some CompressedRecoveryFlag
  | .AddressScriptHash .. => some CompressedRecoveryFlag
  | .AddressWitnessPubKeyHash .. => some CompressedRecoveryFlag
  | .AddressTaproot .. => some UncompressedRecoveryFlag
  | _ => none

/-- Lines 49-63: overwrite the header byte with the base of the address kind,
then add `rangedFlag` to it in byte arithmetic. -/
def resolveHeader (address : Address) (signatureEncoded : List Nat) (rangedFlag : Nat) :
    Option (List Nat) :=
  match baseFlag address with
  | none => none
  | some base =>
    let signatureEncoded := signatureEncoded.set 0 base
    some (signatureEncoded.set 0 ((signatureEncoded.headD 0 + rangedFlag) % 256))

/-- Line 66: `recoveryFlag := int(signatureEncoded[0])`. -/
def recoveryFlagOf (signatureEncoded : List Nat) : Int :=
  Int.ofNat (signatureEncoded.headD 0)

/-- How far one activation of `VerifyBTCSignature` gets before the retry
decision: a `return false, err` ahead of the validation of the address, or
the pair that `ValidateP2PKH`, `ValidateP2SH`, `ValidateP2WPKH` or
`ValidateP2TR` returned. -/
inductive Pass where
  | early (err : GoError)
  | validated (r : Bool × Option GoError)
  deriving DecidableEq, Repr

/-- Body of `VerifyBTCSignature` (verify.go:30-143) up to the call of the
validation in the second type switch. -/
def pipeline (env : Env) (signedMessage : SignedMessage) (net : Params) (rangedFlag : Nat) :
    Pass :=
  -- Decode the address
  match env.DecodeAddress signedMessage.Address net with
  | .error err => .early (Errorf_w "could not decode address: " err)
  | .ok address =>
  -- Decode the signature
  match env.DecodeString signedMessage.Signature with
  | (_, some err) => .early err
  | (signatureEncoded, none) =>
  -- Ensure signature has proper length
  if signatureEncoded.length ≠ ExpectedSignatureLength then
    .early (.errorString
      ("wrong signature length: " ++ toString signatureEncoded.length ++ " instead of 65"))
  else
  match resolveHeader address signatureEncoded rangedFlag with
  | none => .early (.errorString ("unsupported address type \x27" ++ address.typeName ++ "\x27"))
  | some signatureEncoded =>
  -- Ensure signature has proper recovery flag
  let recoveryFlag := recoveryFlagOf signatureEncoded
  if !Contains env.All recoveryFlag then
    .early (.errorString ("invalid recovery flag: " ++ toString recoveryFlag))
  else
  -- Retrieve KeyID
  let keyID := env.GetKeyID recoveryFlag
  -- Should address be compressed (for checking later)
  let compressed := env.ShouldBeCompressed recoveryFlag
  -- Reset recovery flag after obtaining keyID for Trezor
  let signatureEncoded :=
    if Contains env.Trezor recoveryFlag then
      signatureEncoded.set 0 ((27 + keyID) % 256).toNat
    else signatureEncoded
  -- Make the magic message, hash the message
  let messageHash := env.DoubleHashB (stringBytes (env.CreateMagicMessage signedMessage.Message))
  -- Recover the public key from signature and message hash
  match env.RecoverCompact signatureEncoded messageHash with
  | .error err => .early (Errorf_w "could not recover pubkey: " err)
  | .ok (publicKey, comp) =>
  -- Ensure our initial assumption was correct, except for Trezor
  if compressed != comp && !Contains env.Trezor recoveryFlag then
    .early (.errorString "we expected the key to be compressed, it wasn\x27t")
  else
  -- Verify that the signature is valid
  match env.Verify signatureEncoded publicKey messageHash with
  | some err => .early err
  | none =>
  -- Get the hash from the public key, so we can check that address matches
  let publicKeyHash := GeneratePublicKeyHash env recoveryFlag publicKey
  match address with
  | .AddressPubKeyHash .. => .validated (env.ValidateP2PKH recoveryFlag publicKeyHash address net)
  | .AddressScriptHash .. => .validated (env.ValidateP2SH recoveryFlag publicKeyHash address net)
  | .AddressWitnessPubKeyHash .. =>
    .validated (env.ValidateP2WPKH recoveryFlag publicKeyHash address net)
  | .AddressTaproot .. => .validated (env.ValidateP2TR recoveryFlag publicKey address net)
  | _ => .early (.errorString ("unsupported address type \x27" ++ address.typeName ++ "\x27"))

/-- How one activation of `VerifyBTCSignature` ends: with a `return` of a pair,
or with `return VerifyBTCSignature(signedMessage, net, rangedFlag)`. -/
inductive Outcome where
  | ret (ok : Bool) (err : Option GoError)
  | call (rangedFlag : Nat)
  deriving DecidableEq, Repr

/-- Body of `VerifyBTCSignature`, one activation. In each of the four cases of
the second type switch (verify.go:108-138) a non-nil error of the validation
leads to `return VerifyBTCSignature(signedMessage, net, 1)`, and `ok, err` is
returned otherwise. -/
def VerifyBTCSignature_body (env : Env) (signedMessage : SignedMessage) (net : Params)
    (rangedFlag : Nat) : Outcome :=
  match pipeline env signedMessage net rangedFlag with
  | .early err => .ret false (some err)
  | .validated (_, some _) => .call 1
  | .validated (ok, none) => .ret ok none

/-- Function `VerifyBTCSignature` with a budget of nested calls: `none` when
the budget is used up before a `return` of a pair is reached. -/
def VerifyBTCSignature (env : Env) : Nat → SignedMessage → Params → Nat →
    Option (Bool × Option GoError)
  | 0, _, _, _ => none
  | budget + 1, signedMessage, net, rangedFlag =>
    match VerifyBTCSignature_body env signedMessage net rangedFlag with
    | .ret ok err => some (ok, err)
    | .call r => VerifyBTCSignature env budget signedMessage net r

/-- VerifyWithChain will verify a SignedMessage based on the recovery flag on
the passed network (verify.go:147). -/
def VerifyWithChain (env : Env) (budget : Nat) (signedMessage : SignedMessage) (net : Params) :
    Option (Bool × Option GoError) :=
  VerifyBTCSignature env budget signedMessage net 0

/-- Values of `rangedFlag` of the activations that `VerifyBTCSignature` goes
through, in order, within the budget. -/
def activations (env : Env) : Nat → SignedMessage → Params → Nat → List Nat
  | 0, _, _, _ => []
  | budget + 1, signedMessage, net, rangedFlag =>
    rangedFlag ::
      match VerifyBTCSignature_body env signedMessage net rangedFlag with
      | .ret _ _ => []
      | .call r => activations env budget signedMessage net r

/-! ## The base64 decoder of the Go standard library

`base64.StdEncoding.DecodeString` as `encoding/base64` defines it: standard
alphabet, padding character `=`, not strict, `\r` and `\n` ignored. The
word-at-a-time loops of `Decode` decode the same quanta as `decodeQuantum`
and are left out. -/

/-- Table `decodeMap` of the standard alphabet: the sextet of a byte, `255`
for a byte outside the alphabet. -/
def decodeMap (c : Nat) : Nat :=
  if 65 ≤ c ∧ c ≤ 90 then c - 65
  else if 97 ≤ c ∧ c ≤ 122 then c - 71
  else if 48 ≤ c ∧ c ≤ 57 then c + 4
  else if c = 43 then 62
  else if c = 47 then 63
  else 255

/-- Loop that skips over newlines; `rest` is `src[si:]`. -/
def skipNewlines : List Nat → Nat → List Nat × Nat
  | [], si => ([], si)
  | c :: rest, si => if c = 10 ∨ c = 13 then skipNewlines rest (si + 1) else (c :: rest, si)

/-- State in which the sextet loop of `decodeQuantum` is left. -/
inductive Sextets where
  /-- Statement `return si, 0, err`. -/
  | fail (si : Nat) (err : Option GoError)
  /-- Loop left with `dlen` sextets in `dbuf`; `err` is the trailing-garbage error, if any. -/
  | read (rest : List Nat) (si : Nat) (dlen : Nat) (dbuf : List Nat) (err : Option GoError)
  deriving DecidableEq, Repr

/-- End of the padding branch of `decodeQuantum`: skip over newlines, flag
trailing garbage, leave the loop with `dlen = j`. -/
def finishPadding (srcLen : Nat) (rest : List Nat) (si j : Nat) (dbuf : List Nat) : Sextets :=
  match skipNewlines rest si with
  | (rest, si) => .read rest si j dbuf (if si < srcLen then some (.CorruptInputError si) else none)

/-- Branch of `decodeQuantum` taken after a padding character was read at
index `j` of the quantum (`switch j`); `rest` is `src[si:]`. -/
def readPadding (srcLen : Nat) (rest : List Nat) (si j : Nat) (dbuf : List Nat) : Sextets :=
  if j = 0 ∨ j = 1 then .fail si (some (.CorruptInputError (si - 1)))
  else if j = 2 then
    match skipNewlines rest si with
    | ([], si) => .fail si (some (.CorruptInputError srcLen))
    | (d :: rest, si) =>
      if d ≠ 61 then .fail si (some (.CorruptInputError (si - 1)))
      else finishPadding srcLen rest (si + 1) j dbuf
  else finishPadding srcLen rest si j dbuf

/-- Loop `for j := 0; j < len(dbuf); j++` of `decodeQuantum`, with
`rest = src[si:]` and `srcLen = len(src)`. -/
def readSextets (srcLen : Nat) : List Nat → Nat → Nat → List Nat → Sextets
  | [], si, j, dbuf =>
    if 4 ≤ j then .read [] si 4 dbuf none
    else if j = 0 then .fail si none
    else .fail si (some (.CorruptInputError (si - j)))
  | c :: rest, si, j, dbuf =>
    if 4 ≤ j then .read (c :: rest) si 4 dbuf none
    else if decodeMap c ≠ 255 then readSextets srcLen rest (si + 1) (j + 1) (dbuf ++ [decodeMap c])
    else if c = 10 ∨ c = 13 then readSextets srcLen rest (si + 1) j dbuf
    else if c ≠ 61 then .fail (si + 1) (some (.CorruptInputError (si + 1 - 1)))
    else readPadding srcLen rest (si + 1) j dbuf

/-- Function `decodeQuantum`: the rest of the input, the new `si`, the bytes
written and counted, and the error. -/
def decodeQuantum (srcLen : Nat) (rest : List Nat) (si : Nat) :
    List Nat × Nat × List Nat × Option GoError :=
  match readSextets srcLen rest si 0 [] with
  | .fail si err => ([], si, [], err)
  | .read rest si dlen dbuf err =>
    let val := dbuf.getD 0 0 * 262144 + dbuf.getD 1 0 * 4096 + dbuf.getD 2 0 * 64 + dbuf.getD 3 0
    let bytes := [val / 65536 % 256, val / 256 % 256, val % 256]
    (rest, si, bytes.take (dlen - 1), err)

/-- Loop `for si < len(src)` of `Decode`; `steps` bounds the number of quanta. -/
def decodeLoop (srcLen : Nat) : Nat → List Nat → Nat → List Nat → List Nat × Option GoError
  | 0, _, _, dst => (dst, none)
  | steps + 1, rest, si, dst =>
    if rest = [] then (dst, none)
    else
      match decodeQuantum srcLen rest si with
      | (rest, si, bytes, err) =>
        match err with
        | some e => (dst ++ bytes, some e)
        | none => decodeLoop srcLen steps rest si (dst ++ bytes)

/-- Function `base64.StdEncoding.DecodeString`. -/
def StdEncoding_DecodeString (s : String) : List Nat × Option GoError :=
  let src := stringBytes s
  decodeLoop src.length src.length src 0 []

/-! ## An environment for the examples -/

/-- A stand-in for `btcutil.DecodeAddress` on the texts of the examples: four
mainnet addresses of `verify_test.go` with their payloads, and the answers
that `TestVerifyWrongAddress` and `TestVerifyInvalidAddress` expect for the
two texts that are refused. It is meant for `MainNetParams` and these six
texts only; what it answers elsewhere is not what the codec answers. -/
def exampleDecodeAddress (addr : String) (_net : Params) : Except GoError Address :=
  if addr = "bc1pead7k9rdu4ged9q7qt2hqcxr6sx2jvxp7z86tqa8a9tncct657dq6cn4y7" then
    .ok (.AddressTaproot "bc" [207, 91, 235, 20, 109, 229, 81, 150, 148, 30, 2, 213, 112, 96,
      195, 212, 12, 169, 48, 193, 240, 143, 165, 131, 167, 233, 87, 60, 97, 122, 167, 154])
  else if addr = "bc1qp290l5642zjpj0arcqrqjfnk9sm99gcx4egdxg" then
    .ok (.AddressWitnessPubKeyHash "bc" [10, 138, 255, 211, 85, 80, 164, 25, 63, 163, 192, 6,
      9, 38, 118, 44, 54, 82, 163, 6])
  else if addr = "1DFox8Q22CAftbgPJwKAA2PZ446ARuepnP" then
    .ok (.AddressPubKeyHash [134, 110, 134, 112, 108, 88, 252, 30, 84, 72, 29, 174, 24, 178,
      68, 217, 187, 125, 67, 171] 0)
  else if addr = "3Pk3gGKJmftjgDc4ykhXRZKkvf7PSwhfwa" then
    .ok (.AddressScriptHash [241, 229, 122, 168, 192, 37, 22, 97, 32, 77, 171, 152, 107, 172,
      112, 172, 169, 191, 236, 78] 5)
  else if addr = "bc1pead7k9rdu4ged9q7qt2hqcxr6sx2jvxp7z86tqa8a9tncct657dq6cn4y71" then
    .error (.errorString "checksum mismatch")
  else
    .error (.errorString "decoded address is of unknown format")

/-- Modelled from the spec: the flag tables `All()`, `Trezor()`,
`Uncompressed()` and the functions `GetKeyID`, `ShouldBeCompressed`, which
live in another file of the package (section 4.1: standard uncompressed
27-30, standard compressed 31-34, hardware wallet from 35, flags within
27-42, `recoveryID = byte - rangeBase(byte)`).

The other fields are stand-ins for the examples: the codec is
`exampleDecodeAddress`, the base64 decoder is `StdEncoding_DecodeString`, key
recovery always yields the same point and reports the compression that the
header byte encodes, the signature check passes, and each of the four
validation functions answers `validate recoveryFlag`. -/
def exampleEnv (validate : Int → Bool × Option GoError) : Env where
  DecodeAddress := exampleDecodeAddress
  DecodeString := StdEncoding_DecodeString
  All := [27, 28, 29, 30, 31, 32, 33, 34, 35, 36, 37, 38, 39, 40, 41, 42]
  Trezor := [35, 36, 37, 38, 39, 40, 41, 42]
  Uncompressed := [27, 28, 29, 30]
  GetKeyID := fun flag => (flag - 27) % 4
  ShouldBeCompressed := fun flag => decide (31 ≤ flag)
  CreateMagicMessage := fun message => message
  DoubleHashB := fun _ => []
  RecoverCompact := fun signatureEncoded _ => .ok (⟨1, 2⟩, decide (31 ≤ signatureEncoded.headD 0))
  Verify := fun _ _ _ => none
  Hash160 := fun b => b
  SerializeUncompressed := fun k => [4, k.X, k.Y]
  SerializeCompressed := fun k => [2 + k.Y % 2, k.X]
  ValidateP2PKH := fun recoveryFlag _ _ _ => validate recoveryFlag
  ValidateP2SH := fun recoveryFlag _ _ _ => validate recoveryFlag
  ValidateP2WPKH := fun recoveryFlag _ _ _ => validate recoveryFlag
  ValidateP2TR := fun recoveryFlag _ _ _ => validate recoveryFlag

/-- Validation that reports `address mismatched` for every recovery flag. -/
def alwaysMismatch (_recoveryFlag : Int) : Bool × Option GoError :=
  (false, some (.errorString "address mismatched"))

/-- Validation that accepts every recovery flag. -/
def alwaysMatch (_recoveryFlag : Int) : Bool × Option GoError :=
  (true, none)

/-- Validation that reports `address mismatched` for flag 31 and accepts every
other flag: a signature whose key is recovered under flag 32. -/
def mismatchAt31 (recoveryFlag : Int) : Bool × Option GoError :=
  if recoveryFlag = 31 then (false, some (.errorString "address mismatched"))
  else (true, none)

/-- The second scenario of `TestVerifyFailureAddressMismatched`: the mainnet
taproot address with the signature made for the native segwit address. -/
def mismatchedMessage : SignedMessage where
  Address := "bc1pead7k9rdu4ged9q7qt2hqcxr6sx2jvxp7z86tqa8a9tncct657dq6cn4y7"
  Message := "hello world"
  Signature :=
    "HK0zjJT1BNzVyfuY02aPzVLNf71mlw0DQIkKX+iyCOJkKf5CeH8T07xkj+qggmSqy7HliylMd1GKq+b5xlOzHME="

/-- The scenario of `TestVerifyWrongGeneratedSignature`: the mainnet taproot
address of one wallet with the taproot signature of another wallet. -/
def wrongGeneratedMessage : SignedMessage where
  Address := "bc1pead7k9rdu4ged9q7qt2hqcxr6sx2jvxp7z86tqa8a9tncct657dq6cn4y7"
  Message := "hello world"
  Signature :=
    "IOIzS2zyKFXyyTP2ZJP5E18bENjlYNHvzbqHHn9muz/6XkuumgcvlyWaSprT7yfNDLPQ6o+IoAEd+wc48iwtGE4="

/-- The mainnet legacy address of `verify_test.go` with its signature. -/
def legacyMessage : SignedMessage where
  Address := "1DFox8Q22CAftbgPJwKAA2PZ446ARuepnP"
  Message := "hello world"
  Signature :=
    "HC4YrhY0qTsgGlOGRmSzHzwRTUsYIFjkiKRlIffhXV/kUQWAAYG9NDjV441JlwsbqR7WUNrqGGqMcbfTGaa66Z8="

/-- The mainnet legacy address with a signature text that decodes to five bytes. -/
def shortMessage : SignedMessage where
  Address := "1DFox8Q22CAftbgPJwKAA2PZ446ARuepnP"
  Message := "hello world"
  Signature := "aGVsbG8="

/-- The mainnet taproot address of `verify_test.go` with its signature followed
by `aa`, as in `TestVerifyWrongSignature`. -/
def garbledMessage : SignedMessage where
  Address := "bc1pead7k9rdu4ged9q7qt2hqcxr6sx2jvxp7z86tqa8a9tncct657dq6cn4y7"
  Message := "hello world"
  Signature :=
    "G3loPvTHNcZ8DrPBthoq/VEYoEaH3XXQN4T5gXa5RgG9DHlAn4QFk3oqIjEntXo8CHNoynoH1AF4BMBbXHDWMT4=aa"

/-- The mainnet taproot address of `verify_test.go` with its signature. -/
def taprootMessage : SignedMessage where
  Address := "bc1pead7k9rdu4ged9q7qt2hqcxr6sx2jvxp7z86tqa8a9tncct657dq6cn4y7"
  Message := "hello world"
  Signature :=
    "G3loPvTHNcZ8DrPBthoq/VEYoEaH3XXQN4T5gXa5RgG9DHlAn4QFk3oqIjEntXo8CHNoynoH1AF4BMBbXHDWMT4="

/-- The same as `taprootMessage` with the header byte of the signature changed from 27 to 200. -/
def taprootMessageOtherHeader : SignedMessage where
  Address := "bc1pead7k9rdu4ged9q7qt2hqcxr6sx2jvxp7z86tqa8a9tncct657dq6cn4y7"
  Message := "hello world"
  Signature :=
    "yHloPvTHNcZ8DrPBthoq/VEYoEaH3XXQN4T5gXa5RgG9DHlAn4QFk3oqIjEntXo8CHNoynoH1AF4BMBbXHDWMT4="

/-- The 64 bytes after the header byte of the signature of `taprootMessage`. -/
def taprootSignatureRS : List Nat :=
  [121, 104, 62, 244, 199, 53, 198, 124, 14, 179, 193, 182, 26, 42, 253, 81, 24, 160, 70,
    135, 221, 117, 208, 55, 132, 249, 129, 118, 185, 70, 1, 189, 12, 121, 64, 159, 132, 5,
    147, 122, 42, 34, 49, 39, 181, 122, 60, 8, 115, 104, 202, 122, 7, 212, 1, 120, 4, 192,
    91, 92, 112, 214, 49, 62]

/-- The same as `taprootMessage` with a newline and `a` after the signature. -/
def newlineMessage : SignedMessage where
  Address := "bc1pead7k9rdu4ged9q7qt2hqcxr6sx2jvxp7z86tqa8a9tncct657dq6cn4y7"
  Message := "hello world"
  Signature :=
    "G3loPvTHNcZ8DrPBthoq/VEYoEaH3XXQN4T5gXa5RgG9DHlAn4QFk3oqIjEntXo8CHNoynoH1AF4BMBbXHDWMT4=\na"

/-! ## Control flow of `VerifyBTCSignature` -/

theorem VerifyBTCSignature_succ (env : Env) (budget : Nat) (sm : SignedMessage) (net : Params)
    (rangedFlag : Nat) :
    VerifyBTCSignature env (budget + 1) sm net rangedFlag =
      match VerifyBTCSignature_body env sm net rangedFlag with
      | .ret ok err => some (ok, err)
      | .call r => VerifyBTCSignature env budget sm net r := rfl

theorem activations_succ (env : Env) (budget : Nat) (sm : SignedMessage) (net : Params)
    (rangedFlag : Nat) :
    activations env (budget + 1) sm net rangedFlag =
      rangedFlag ::
        match VerifyBTCSignature_body env sm net rangedFlag with
        | .ret _ _ => []
        | .call r => activations env budget sm net r := rfl

/-- An activation that stops ahead of the validation returns `false` and the error. -/
theorem body_of_early {env : Env} {sm : SignedMessage} {net : Params} {rangedFlag : Nat}
    {err : GoError} (h : pipeline env sm net rangedFlag = .early err) :
    VerifyBTCSignature_body env sm net rangedFlag = .ret false (some err) := by
  simp [VerifyBTCSignature_body, h]

/-- An activation whose validation reports no error returns its pair. -/
theorem body_of_validated_nil {env : Env} {sm : SignedMessage} {net : Params} {rangedFlag : Nat}
    {ok : Bool} (h : pipeline env sm net rangedFlag = .validated (ok, none)) :
    VerifyBTCSignature_body env sm net rangedFlag = .ret ok none := by
  simp [VerifyBTCSignature_body, h]

/-- An activation whose validation reports an error calls the function again with 1. -/
theorem body_of_validated_err {env : Env} {sm : SignedMessage} {net : Params} {rangedFlag : Nat}
    {ok : Bool} {e : GoError} (h : pipeline env sm net rangedFlag = .validated (ok, some e)) :
    VerifyBTCSignature_body env sm net rangedFlag = .call 1 := by
  simp [VerifyBTCSignature_body, h]

/-- The only argument of a nested call is 1. -/
theorem body_call_eq_one {env : Env} {sm : SignedMessage} {net : Params} {rangedFlag r : Nat}
    (h : VerifyBTCSignature_body env sm net rangedFlag = .call r) : r = 1 := by
  unfold VerifyBTCSignature_body at h
  split at h <;> simp_all

/-- A returned pair is returned whatever the budget beyond one activation. -/
theorem VerifyBTCSignature_of_ret {env : Env} {sm : SignedMessage} {net : Params}
    {rangedFlag : Nat} {ok : Bool} {err : Option GoError}
    (h : VerifyBTCSignature_body env sm net rangedFlag = .ret ok err) (budget : Nat) :
    VerifyBTCSignature env (budget + 1) sm net rangedFlag = some (ok, err) ∧
      activations env (budget + 1) sm net rangedFlag = [rangedFlag] := by
  simp [VerifyBTCSignature_succ, activations_succ, h]

/-- When the activation with `rangedFlag = 1` calls the function again, no
budget suffices: the call with `rangedFlag = 1` never returns. -/
theorem VerifyBTCSignature_one_diverges {env : Env} {sm : SignedMessage} {net : Params}
    (h : VerifyBTCSignature_body env sm net 1 = .call 1) (budget : Nat) :
    VerifyBTCSignature env budget sm net 1 = none ∧
      activations env budget sm net 1 = List.replicate budget 1 := by
  induction budget with
  | zero => exact ⟨rfl, rfl⟩
  | succ n ih =>
    rw [VerifyBTCSignature_succ, activations_succ, h]
    simp [ih.1, ih.2, List.replicate_succ]

/-- When the validation reports an error in the activation with offset 0 and
in the one with offset 1, `VerifyWithChain` returns nothing, whatever the
budget: the activations are the one with offset 0 and then the one with
offset 1 over and over. -/
theorem VerifyWithChain_of_two_validation_errors {env : Env} {sm : SignedMessage}
    {net : Params} {ok0 ok1 : Bool} {e0 e1 : GoError}
    (h0 : pipeline env sm net 0 = .validated (ok0, some e0))
    (h1 : pipeline env sm net 1 = .validated (ok1, some e1)) (budget : Nat) :
    VerifyWithChain env (budget + 1) sm net = none ∧
      activations env (budget + 1) sm net 0 = 0 :: List.replicate budget 1 := by
  have hd := VerifyBTCSignature_one_diverges (body_of_validated_err h1) budget
  constructor
  · rw [VerifyWithChain, VerifyBTCSignature_succ, body_of_validated_err h0]
    exact hd.1
  · rw [activations_succ, body_of_validated_err h0]
    simp [hd.2]

/-- Every activation reached from `rangedFlag ≤ 1` has `rangedFlag ≤ 1`. -/
theorem activations_le_one (env : Env) (sm : SignedMessage) (net : Params) (budget : Nat) :
    ∀ rangedFlag, rangedFlag ≤ 1 → ∀ r ∈ activations env budget sm net rangedFlag, r ≤ 1 := by
  induction budget with
  | zero => intro _ _ r hr; simp [activations] at hr
  | succ n ih =>
    intro rangedFlag hle r hr
    rw [activations_succ] at hr
    rcases List.mem_cons.1 hr with h | h
    · omega
    · cases hb : VerifyBTCSignature_body env sm net rangedFlag with
      | ret ok err => simp [hb] at h
      | call c =>
        simp only [hb] at h
        have hc : c = 1 := body_call_eq_one hb
        subst hc
        exact ih 1 (le_refl 1) r h

/-! ## The retry -/

/-- C1, evaluated on the code: for the taproot address paired with the
signature of the native segwit address, the validation reports
`address mismatched` in the activation with offset 0 and in the one with
offset 1, and `VerifyWithChain` returns nothing for any budget of nested
calls; the second mismatch makes the function call itself with offset 1 again
instead of being returned. -/
theorem C1_second_mismatch_is_not_returned :
    pipeline (exampleEnv alwaysMismatch) mismatchedMessage MainNetParams 0
        = .validated (false, some (.errorString "address mismatched")) ∧
    pipeline (exampleEnv alwaysMismatch) mismatchedMessage MainNetParams 1
        = .validated (false, some (.errorString "address mismatched")) ∧
    VerifyBTCSignature_body (exampleEnv alwaysMismatch) mismatchedMessage MainNetParams 1
        = .call 1 ∧
    ∀ budget,
      VerifyWithChain (exampleEnv alwaysMismatch) budget mismatchedMessage MainNetParams
        = none := by
  have h0 : pipeline (exampleEnv alwaysMismatch) mismatchedMessage MainNetParams 0
      = .validated (false, some (.errorString "address mismatched")) := by decide
  have h1 : pipeline (exampleEnv alwaysMismatch) mismatchedMessage MainNetParams 1
      = .validated (false, some (.errorString "address mismatched")) := by decide
  refine ⟨h0, h1, body_of_validated_err h1, ?_⟩
  intro budget
  cases budget with
  | zero => rfl
  | succ n => exact (VerifyWithChain_of_two_validation_errors h0 h1 n).1

/-- C2, evaluated on the code: for the same input the pipeline is run once
with offset 0 and then with offset 1 as many times as the budget of nested
calls allows, whatever the budget, and no result is returned: the depth of the
self-recursion has no bound. -/
theorem C2_recursion_is_unbounded (budget : Nat) :
    activations (exampleEnv alwaysMismatch) (budget + 1) mismatchedMessage MainNetParams 0
        = 0 :: List.replicate budget 1 ∧
    VerifyWithChain (exampleEnv alwaysMismatch) (budget + 1) mismatchedMessage MainNetParams
        = none := by
  have h0 : pipeline (exampleEnv alwaysMismatch) mismatchedMessage MainNetParams 0
      = .validated (false, some (.errorString "address mismatched")) := by decide
  have h1 : pipeline (exampleEnv alwaysMismatch) mismatchedMessage MainNetParams 1
      = .validated (false, some (.errorString "address mismatched")) := by decide
  have h := VerifyWithChain_of_two_validation_errors h0 h1 budget
  exact ⟨h.2, h.1⟩

/-- C3, evaluated on the code: for the taproot address paired with the taproot
signature of another wallet, the pass with offset 1 reports
`address mismatched` and the pipeline is run again after it, a third and a
fourth time, each time with offset 1: a pass is re-run not only after the pass
with offset 0. -/
theorem C3_rerun_after_pass_with_offset_one :
    pipeline (exampleEnv alwaysMismatch) wrongGeneratedMessage MainNetParams 1
        = .validated (false, some (.errorString "address mismatched")) ∧
    activations (exampleEnv alwaysMismatch) 4 wrongGeneratedMessage MainNetParams 0
        = [0, 1, 1, 1] ∧
    VerifyWithChain (exampleEnv alwaysMismatch) 4 wrongGeneratedMessage MainNetParams
        = none := by
  decide

/-! ## Properties of the base64 decoder -/


theorem skipNewlines_pos (rest : List Nat) (si : Nat) :
    (skipNewlines rest si).2 + (skipNewlines rest si).1.length = si + rest.length := by
  induction rest generalizing si with
  | nil => simp [skipNewlines]
  | cons c r ih =>
    simp only [skipNewlines]
    split
    · rw [ih]; simp; omega
    · simp

theorem skipNewlines_le (rest : List Nat) (si : Nat) : si ≤ (skipNewlines rest si).2 := by
  induction rest generalizing si with
  | nil => simp [skipNewlines]
  | cons c r ih =>
    simp only [skipNewlines]
    split
    · exact Nat.le_trans (Nat.le_succ si) (ih (si + 1))
    · simp

theorem skipNewlines_append_cons {rest : List Nat} {si : Nat} {d : Nat} {r : List Nat} {si2 : Nat}
    (h : skipNewlines rest si = (d :: r, si2)) (x : List Nat) :
    skipNewlines (rest ++ x) si = (d :: r ++ x, si2) := by
  induction rest generalizing si with
  | nil => simp [skipNewlines] at h
  | cons c t ih =>
    simp only [skipNewlines, List.cons_append] at h ⊢
    split
    · rename_i hc; rw [if_pos hc] at h; exact ih h
    · rename_i hc; rw [if_neg hc] at h
      simp only [Prod.mk.injEq, List.cons.injEq] at h
      obtain ⟨⟨h1, h2⟩, h3⟩ := h
      subst h1 h2 h3; rfl

theorem skipNewlines_append_nil {rest : List Nat} {si : Nat} {si2 : Nat}
    (h : skipNewlines rest si = ([], si2)) (c : Nat) (hc : ¬ (c = 10 ∨ c = 13)) (x : List Nat) :
    skipNewlines (rest ++ c :: x) si = (c :: x, si2) := by
  induction rest generalizing si with
  | nil => simp [skipNewlines] at h ⊢; simp [hc, h]
  | cons d t ih =>
    simp only [skipNewlines, List.cons_append] at h ⊢
    split
    · rename_i hd; rw [if_pos hd] at h; exact ih h
    · rename_i hd; rw [if_neg hd] at h; simp at h


theorem finishPadding_read {n : Nat} {rest : List Nat} {si j : Nat} {dbuf : List Nat}
    {rest' : List Nat} {si' dlen : Nat} {dbuf' : List Nat} {err : Option GoError}
    (h : finishPadding n rest si j dbuf = .read rest' si' dlen dbuf' err) :
    dlen = j ∧ dbuf' = dbuf ∧ si' + rest'.length = si + rest.length ∧ si ≤ si' ∧
    err = (if si' < n then some (.CorruptInputError si') else none) ∧
    (rest' = [] → ∀ (n2 c : Nat) (x : List Nat), ¬ (c = 10 ∨ c = 13) →
      finishPadding n2 (rest ++ c :: x) si j dbuf
        = .read (c :: x) si' dlen dbuf'
            (if si' < n2 then some (.CorruptInputError si') else none)) := by
  unfold finishPadding at h
  have hpos := skipNewlines_pos rest si
  have hle := skipNewlines_le rest si
  cases hs : skipNewlines rest si with
  | mk r s =>
    rw [hs] at h hpos hle
    simp only [Sextets.read.injEq] at h
    obtain ⟨h1, h2, h3, h4, h5⟩ := h
    subst h1 h2 h3 h4
    refine ⟨rfl, rfl, by simpa using hpos, by simpa using hle, h5.symm, ?_⟩
    intro hr n2 c x hc
    subst hr
    unfold finishPadding
    rw [skipNewlines_append_nil hs c hc x]

theorem readPadding_read {n : Nat} {rest : List Nat} {si j : Nat} {dbuf : List Nat}
    {rest' : List Nat} {si' dlen : Nat} {dbuf' : List Nat} {err : Option GoError}
    (h : readPadding n rest si j dbuf = .read rest' si' dlen dbuf' err) :
    dlen = j ∧ 2 ≤ j ∧ dbuf' = dbuf ∧ si' + rest'.length = si + rest.length ∧
    rest'.length + (3 - j) ≤ rest.length ∧
    err = (if si' < n then some (.CorruptInputError si') else none) ∧
    (rest' = [] → ∀ (n2 c : Nat) (x : List Nat), ¬ (c = 10 ∨ c = 13) →
      readPadding n2 (rest ++ c :: x) si j dbuf
        = .read (c :: x) si' dlen dbuf'
            (if si' < n2 then some (.CorruptInputError si') else none)) := by
  unfold readPadding at h
  by_cases h01 : j = 0 ∨ j = 1
  · rw [if_pos h01] at h; simp at h
  · rw [if_neg h01] at h
    by_cases h2 : j = 2
    · rw [if_pos h2] at h
      have hpos := skipNewlines_pos rest si
      have hle := skipNewlines_le rest si
      cases hs : skipNewlines rest si with
      | mk r s =>
        rw [hs] at h hpos hle
        cases r with
        | nil => simp at h
        | cons d r2 =>
          dsimp only at h hle hpos
          by_cases hd : d ≠ 61
          · rw [if_pos hd] at h; simp at h
          · rw [if_neg hd] at h
            obtain ⟨e1, e2, e3, e3b, e4, e5⟩ := finishPadding_read h
            simp only [List.length_cons] at hpos
            refine ⟨e1, by omega, e2, by omega, by omega, e4, ?_⟩
            intro hr n2 c x hc
            unfold readPadding
            rw [if_neg h01, if_pos h2, skipNewlines_append_cons hs (c :: x), List.cons_append]
            dsimp only
            rw [if_neg hd]
            exact e5 hr n2 c x hc
    · rw [if_neg h2] at h
      obtain ⟨e1, e2, e3, e3b, e4, e5⟩ := finishPadding_read h
      refine ⟨e1, by omega, e2, e3, by omega, e4, ?_⟩
      intro hr n2 c x hc
      unfold readPadding
      rw [if_neg h01, if_neg h2]
      exact e5 hr n2 c x hc

theorem readSextets_nil (n si j : Nat) (dbuf : List Nat) :
    readSextets n [] si j dbuf =
      if 4 ≤ j then .read [] si 4 dbuf none
      else if j = 0 then .fail si none
      else .fail si (some (.CorruptInputError (si - j))) := rfl

theorem readSextets_cons (n c : Nat) (rest : List Nat) (si j : Nat) (dbuf : List Nat) :
    readSextets n (c :: rest) si j dbuf =
      if 4 ≤ j then .read (c :: rest) si 4 dbuf none
      else if decodeMap c ≠ 255 then readSextets n rest (si + 1) (j + 1) (dbuf ++ [decodeMap c])
      else if c = 10 ∨ c = 13 then readSextets n rest (si + 1) j dbuf
      else if c ≠ 61 then .fail (si + 1) (some (.CorruptInputError (si + 1 - 1)))
      else readPadding n rest (si + 1) j dbuf := rfl

/-- A quantum of four sextets. -/
theorem readSextets_full {n : Nat} {rest : List Nat} {si j : Nat} {dbuf : List Nat}
    {rest' : List Nat} {si' : Nat} {dbuf' : List Nat} {err : Option GoError}
    (h : readSextets n rest si j dbuf = .read rest' si' 4 dbuf' err) :
    err = none ∧ si' + rest'.length = si + rest.length ∧
    rest'.length + (4 - j) ≤ rest.length ∧
    ∀ (n2 : Nat) (x : List Nat),
      readSextets n2 (rest ++ x) si j dbuf = .read (rest' ++ x) si' 4 dbuf' none := by
  induction rest generalizing si j dbuf with
  | nil =>
    rw [readSextets_nil] at h
    by_cases h4 : 4 ≤ j
    · rw [if_pos h4] at h
      simp only [Sextets.read.injEq] at h
      obtain ⟨h1, h2, -, h3, h5⟩ := h
      subst h1 h2 h3 h5
      refine ⟨rfl, rfl, by simp; omega, ?_⟩
      intro n2 x
      cases x with
      | nil => simp [readSextets_nil, h4]
      | cons c x => simp [readSextets_cons, h4]
    · rw [if_neg h4] at h
      split at h <;> simp at h
  | cons c t ih =>
    rw [readSextets_cons] at h
    by_cases h4 : 4 ≤ j
    · rw [if_pos h4] at h
      simp only [Sextets.read.injEq] at h
      obtain ⟨h1, h2, -, h3, h5⟩ := h
      subst h1 h2 h3 h5
      refine ⟨rfl, rfl, by simp; omega, ?_⟩
      intro n2 x
      simp [readSextets_cons, h4]
    · rw [if_neg h4] at h
      by_cases ha : decodeMap c ≠ 255
      · rw [if_pos ha] at h
        obtain ⟨e1, e2, e3, e4⟩ := ih h
        refine ⟨e1, by simp only [List.length_cons]; omega,
          by simp only [List.length_cons]; omega, ?_⟩
        intro n2 x
        rw [List.cons_append, readSextets_cons, if_neg h4, if_pos ha]
        exact e4 n2 x
      · rw [if_neg ha] at h
        by_cases hn : c = 10 ∨ c = 13
        · rw [if_pos hn] at h
          obtain ⟨e1, e2, e3, e4⟩ := ih h
          refine ⟨e1, by simp only [List.length_cons]; omega,
            by simp only [List.length_cons]; omega, ?_⟩
          intro n2 x
          rw [List.cons_append, readSextets_cons, if_neg h4, if_neg ha, if_pos hn]
          exact e4 n2 x
        · rw [if_neg hn] at h
          by_cases hp : c ≠ 61
          · rw [if_pos hp] at h; simp at h
          · rw [if_neg hp] at h
            obtain ⟨e1, -⟩ := readPadding_read h
            omega

/-- A quantum that ends with padding. -/
theorem readSextets_padded {n : Nat} {rest : List Nat} {si j : Nat} {dbuf : List Nat}
    {rest' : List Nat} {si' dlen : Nat} {dbuf' : List Nat} {err : Option GoError}
    (h : readSextets n rest si j dbuf = .read rest' si' dlen dbuf' err) (hd : dlen ≠ 4) :
    (dlen = 2 ∨ dlen = 3) ∧ si' + rest'.length = si + rest.length ∧
    rest'.length + (4 - j) ≤ rest.length ∧
    err = (if si' < n then some (.CorruptInputError si') else none) ∧
    (rest' = [] → ∀ (n2 c : Nat) (x : List Nat), ¬ (c = 10 ∨ c = 13) →
      readSextets n2 (rest ++ c :: x) si j dbuf
        = .read (c :: x) si' dlen dbuf'
            (if si' < n2 then some (.CorruptInputError si') else none)) := by
  induction rest generalizing si j dbuf with
  | nil =>
    rw [readSextets_nil] at h
    split at h
    · simp only [Sextets.read.injEq] at h; omega
    · split at h <;> simp at h
  | cons c t ih =>
    rw [readSextets_cons] at h
    by_cases h4 : 4 ≤ j
    · rw [if_pos h4] at h
      simp only [Sextets.read.injEq] at h; omega
    · rw [if_neg h4] at h
      by_cases ha : decodeMap c ≠ 255
      · rw [if_pos ha] at h
        obtain ⟨e1, e2, e3, e4, e5⟩ := ih h
        refine ⟨e1, by simp only [List.length_cons]; omega,
          by simp only [List.length_cons]; omega, e4, ?_⟩
        intro hr n2 c2 x hc
        rw [List.cons_append, readSextets_cons, if_neg h4, if_pos ha]
        exact e5 hr n2 c2 x hc
      · rw [if_neg ha] at h
        by_cases hn : c = 10 ∨ c = 13
        · rw [if_pos hn] at h
          obtain ⟨e1, e2, e3, e4, e5⟩ := ih h
          refine ⟨e1, by simp only [List.length_cons]; omega,
            by simp only [List.length_cons]; omega, e4, ?_⟩
          intro hr n2 c2 x hc
          rw [List.cons_append, readSextets_cons, if_neg h4, if_neg ha, if_pos hn]
          exact e5 hr n2 c2 x hc
        · rw [if_neg hn] at h
          by_cases hp : c ≠ 61
          · rw [if_pos hp] at h; simp at h
          · rw [if_neg hp] at h
            obtain ⟨e1, e2, e3, e4, e5, e6, e7⟩ := readPadding_read h
            refine ⟨by omega, by simp only [List.length_cons]; omega,
              by simp only [List.length_cons]; omega, e6, ?_⟩
            intro hr n2 c2 x hc
            rw [List.cons_append, readSextets_cons, if_neg h4, if_neg ha, if_neg hn, if_neg hp]
            exact e7 hr n2 c2 x hc


/-- Bytes that `decodeQuantum` counts for `dlen` sextets. -/
theorem quantumBytes_length (v dlen : Nat) (h : dlen ≤ 4) :
    (([v / 65536 % 256, v / 256 % 256, v % 256] : List Nat).take (dlen - 1)).length = dlen - 1 := by
  simp only [List.length_take, List.length_cons, List.length_nil]
  omega

theorem decodeLoop_nil (n steps si : Nat) (dst : List Nat) :
    decodeLoop n steps [] si dst = (dst, none) := by
  cases steps <;> simp [decodeLoop]

theorem decodeLoop_succ (n steps : Nat) (rest : List Nat) (si : Nat) (dst : List Nat) :
    decodeLoop n (steps + 1) rest si dst =
      if rest = [] then (dst, none)
      else
        match decodeQuantum n rest si with
        | (rest, si, bytes, err) =>
          match err with
          | some e => (dst ++ bytes, some e)
          | none => decodeLoop n steps rest si (dst ++ bytes) := rfl

/-- Accounting of a decoding without error: every quantum takes at least four
bytes of text and gives three bytes, or two or one when it ends with padding. -/
theorem decodeLoop_bound {n steps : Nat} {rest : List Nat} {si : Nat} {dst out : List Nat}
    (h : decodeLoop n steps rest si dst = (out, none)) :
    ∃ k a b, out.length = dst.length + k ∧ 3 * rest.length = 4 * k + 3 * a + 4 * b := by
  induction steps generalizing rest si dst with
  | zero =>
    simp only [decodeLoop, Prod.mk.injEq, and_true] at h
    subst h
    exact ⟨0, rest.length, 0, by simp, by omega⟩
  | succ m ih =>
    rw [decodeLoop_succ] at h
    by_cases hr : rest = []
    · rw [if_pos hr] at h
      simp only [Prod.mk.injEq, and_true] at h
      subst h hr
      exact ⟨0, 0, 0, by simp, by simp⟩
    · rw [if_neg hr] at h
      unfold decodeQuantum at h
      cases hrs : readSextets n rest si 0 [] with
      | fail si2 err =>
        rw [hrs] at h
        cases err with
        | some e => simp at h
        | none =>
          dsimp only at h
          rw [decodeLoop_nil] at h
          simp only [List.append_nil, Prod.mk.injEq, and_true] at h
          subst h
          exact ⟨0, rest.length, 0, by simp, by omega⟩
      | read rest2 si2 dlen dbuf err =>
        rw [hrs] at h
        cases err with
        | some e => simp at h
        | none =>
          dsimp only at h
          obtain ⟨k, a, b, hk1, hk2⟩ := ih h
          rw [List.length_append] at hk1
          by_cases h4 : dlen = 4
          · subst h4
            obtain ⟨-, -, e3, -⟩ := readSextets_full hrs
            rw [quantumBytes_length _ 4 (by omega)] at hk1
            exact ⟨k + 3, a + (rest.length - rest2.length - 4), b, by omega, by omega⟩
          · obtain ⟨e1, -, e3, -, -⟩ := readSextets_padded hrs h4
            rw [quantumBytes_length _ dlen (by omega)] at hk1
            rcases e1 with e1 | e1
            · subst e1
              exact ⟨k + 1, a + (rest.length - rest2.length - 4), b + 2, by omega, by omega⟩
            · subst e1
              exact ⟨k + 2, a + (rest.length - rest2.length - 4), b + 1, by omega, by omega⟩

/-- Text that decodes without error to one byte less than three quarters of
its length, followed by a byte that is not a newline: the decoder reports the
position right after the text. -/
theorem decodeLoop_append_garbage (c : Nat) (extra : List Nat) (hc : ¬ (c = 10 ∨ c = 13))
    {n steps : Nat} {rest : List Nat} {si : Nat} {dst out : List Nat}
    (h : decodeLoop n steps rest si dst = (out, none)) (hn : n = si + rest.length)
    (hk : 3 * rest.length + 4 * dst.length = 4 * out.length + 4)
    (n2 steps2 : Nat) (hs2 : rest.length < steps2) (hn2 : si + rest.length < n2) :
    (decodeLoop n2 steps2 (rest ++ c :: extra) si dst).2
      = some (.CorruptInputError (si + rest.length)) := by
  induction steps generalizing rest si dst steps2 with
  | zero =>
    simp only [decodeLoop, Prod.mk.injEq, and_true] at h
    subst h
    omega
  | succ m ih =>
    rw [decodeLoop_succ] at h
    by_cases hr : rest = []
    · rw [if_pos hr] at h
      simp only [Prod.mk.injEq, and_true] at h
      subst h hr
      simp at hk
    · rw [if_neg hr] at h
      obtain ⟨s2, rfl⟩ : ∃ s2, steps2 = s2 + 1 := ⟨steps2 - 1, by omega⟩
      have hne : rest ++ c :: extra ≠ [] := by simp
      rw [decodeLoop_succ, if_neg hne]
      unfold decodeQuantum at h ⊢
      cases hrs : readSextets n rest si 0 [] with
      | fail si2 err =>
        rw [hrs] at h
        cases err with
        | some e => simp at h
        | none =>
          dsimp only at h
          rw [decodeLoop_nil] at h
          simp only [List.append_nil, Prod.mk.injEq, and_true] at h
          subst h
          omega
      | read rest2 si2 dlen dbuf err =>
        rw [hrs] at h
        cases err with
        | some e => simp at h
        | none =>
          dsimp only at h
          by_cases h4 : dlen = 4
          · subst h4
            obtain ⟨-, e2, e3, e4⟩ := readSextets_full hrs
            obtain ⟨k, a, b, hk1, hk2⟩ := decodeLoop_bound h
            rw [List.length_append, quantumBytes_length _ 4 (by omega)] at hk1
            rw [e4 n2 (c :: extra)]
            dsimp only
            have hlen : rest.length = rest2.length + 4 := by omega
            have := ih h (by omega)
              (by rw [List.length_append, quantumBytes_length _ 4 (by omega)]; omega)
              s2 (by omega) (by omega)
            rw [this, e2]
          · obtain ⟨e1, e2, e3, e4, e5⟩ := readSextets_padded hrs h4
            have hnil : rest2 = [] := by
              have hlt : ¬ si2 < n := by
                intro hlt
                rw [if_pos hlt] at e4
                simp at e4
              apply List.eq_nil_of_length_eq_zero
              omega
            rw [e5 hnil n2 c extra hc]
            subst hnil
            simp only [List.length_nil, Nat.add_zero] at e2
            have hlt2 : si2 < n2 := by omega
            rw [if_pos hlt2]
            dsimp only
            rw [e2]


theorem stringBytes_append (s t : String) :
    stringBytes (s ++ t) = stringBytes s ++ stringBytes t := by
  simp [stringBytes, String.toList]

/-- Appending text to a signature text of 88 bytes that decodes to 65 bytes. -/
theorem DecodeString_appended (s t : String) (out : List Nat) (c : Nat) (extra : List Nat)
    (hlen : (stringBytes s).length = 88)
    (hok : StdEncoding_DecodeString s = (out, none)) (hout : out.length = 65)
    (ht : stringBytes t = c :: extra) (hc : ¬ (c = 10 ∨ c = 13)) :
    (StdEncoding_DecodeString (s ++ t)).2 = some (.CorruptInputError 88) := by
  unfold StdEncoding_DecodeString at hok ⊢
  dsimp only at hok ⊢
  rw [stringBytes_append, ht]
  have := decodeLoop_append_garbage c extra hc hok (by simp) (by simp [hlen, hout])
    ((stringBytes s ++ c :: extra).length) ((stringBytes s ++ c :: extra).length)
    (by simp) (by simp)
  simpa [hlen] using this

/-! ## Early returns -/

/-- What the pipeline yields for an address that does not decode. -/
theorem pipeline_of_address_error {env : Env} {sm : SignedMessage} {net : Params}
    {e : GoError} (h : env.DecodeAddress sm.Address net = .error e) (rangedFlag : Nat) :
    pipeline env sm net rangedFlag = .early (Errorf_w "could not decode address: " e) := by
  simp [pipeline, h]

/-- What the pipeline yields for a signature text that base64 refuses. -/
theorem pipeline_of_base64_error {env : Env} {sm : SignedMessage} {net : Params}
    {address : Address} {bytes : List Nat} {e : GoError}
    (haddr : env.DecodeAddress sm.Address net = .ok address)
    (hsig : env.DecodeString sm.Signature = (bytes, some e)) (rangedFlag : Nat) :
    pipeline env sm net rangedFlag = .early e := by
  simp [pipeline, haddr, hsig]

/-- What the pipeline yields for a decoded signature of the wrong length. -/
theorem pipeline_of_wrong_length {env : Env} {sm : SignedMessage} {net : Params}
    {address : Address} {bytes : List Nat}
    (haddr : env.DecodeAddress sm.Address net = .ok address)
    (hsig : env.DecodeString sm.Signature = (bytes, none))
    (hlen : bytes.length ≠ 65) (rangedFlag : Nat) :
    pipeline env sm net rangedFlag = .early (.errorString
      ("wrong signature length: " ++ toString bytes.length ++ " instead of 65")) := by
  simp [pipeline, haddr, hsig, ExpectedSignatureLength, hlen]

/-- C4: when the address decodes and the signature base64-decodes to a number
of bytes other than 65, `VerifyBTCSignature` returns `false` and the error
`wrong signature length: n instead of 65` for every offset, in a single
activation (no retry), and the result is the same under any other digest,
key-recovery, flag-table and validation functions. -/
theorem C4_wrong_signature_length (env : Env) (sm : SignedMessage) (net : Params)
    (rangedFlag budget : Nat) (address : Address) (bytes : List Nat)
    (haddr : env.DecodeAddress sm.Address net = .ok address)
    (hsig : env.DecodeString sm.Signature = (bytes, none))
    (hlen : bytes.length ≠ 65) :
    VerifyBTCSignature env (budget + 1) sm net rangedFlag
        = some (false, some (.errorString
            ("wrong signature length: " ++ toString bytes.length ++ " instead of 65"))) ∧
    activations env (budget + 1) sm net rangedFlag = [rangedFlag] ∧
    ∀ other : Env, other.DecodeAddress = env.DecodeAddress →
      other.DecodeString = env.DecodeString →
      VerifyBTCSignature other (budget + 1) sm net rangedFlag
        = VerifyBTCSignature env (budget + 1) sm net rangedFlag := by
  have h := VerifyBTCSignature_of_ret
    (body_of_early (pipeline_of_wrong_length haddr hsig hlen rangedFlag)) budget
  refine ⟨h.1, h.2, ?_⟩
  intro other h1 h2
  have haddr2 : other.DecodeAddress sm.Address net = .ok address := by rw [h1]; exact haddr
  have hsig2 : other.DecodeString sm.Signature = (bytes, none) := by rw [h2]; exact hsig
  rw [h.1, (VerifyBTCSignature_of_ret
    (body_of_early (pipeline_of_wrong_length haddr2 hsig2 hlen rangedFlag)) budget).1]

/-- C4 at a signature text of five bytes, for offset 0. -/
theorem C4_wrong_signature_length_witness :
    VerifyBTCSignature (exampleEnv alwaysMatch) 1 shortMessage MainNetParams 0
      = some (false, some (.errorString "wrong signature length: 5 instead of 65")) :=
  (C4_wrong_signature_length (exampleEnv alwaysMatch) shortMessage MainNetParams 0 0
    (.AddressPubKeyHash [134, 110, 134, 112, 108, 88, 252, 30, 84, 72, 29, 174, 24, 178,
      68, 217, 187, 125, 67, 171] 0) [104, 101, 108, 108, 111]
    (by rfl) (by decide) (by decide)).1

/-- C5: when the address does not decode on the network, with codec error `e`,
`VerifyWithChain` returns `false` and an error that wraps `e` and whose text
is `could not decode address: ` followed by the text of `e`, whatever the
message and the signature are, in a single activation (no retry). -/
theorem C5_address_decode_error (env : Env) (sm : SignedMessage) (net : Params)
    (budget : Nat) (e : GoError)
    (h : env.DecodeAddress sm.Address net = .error e) :
    VerifyWithChain env (budget + 1) sm net
        = some (false, some (.wrapError ("could not decode address: " ++ e.Error) e)) ∧
    GoError.Error (.wrapError ("could not decode address: " ++ e.Error) e)
        = "could not decode address: " ++ e.Error ∧
    activations env (budget + 1) sm net 0 = [0] :=
  have h2 := VerifyBTCSignature_of_ret (body_of_early (pipeline_of_address_error h 0)) budget
  ⟨h2.1, rfl, h2.2⟩

/-- C5 at the address of `TestVerifyWrongAddress` (a valid address with one
character appended) and at the address of `TestVerifyInvalidAddress`, each
with a signature text that is not base64 either. -/
theorem C5_address_decode_error_witness :
    VerifyWithChain (exampleEnv alwaysMatch) 1
        ⟨"bc1pead7k9rdu4ged9q7qt2hqcxr6sx2jvxp7z86tqa8a9tncct657dq6cn4y71", "hello world", "?"⟩
        MainNetParams
      = some (false, some (.wrapError "could not decode address: checksum mismatch"
          (.errorString "checksum mismatch"))) ∧
    VerifyWithChain (exampleEnv alwaysMatch) 1 ⟨"INVALID", "hello world", "?"⟩ MainNetParams
      = some (false, some (.wrapError
          "could not decode address: decoded address is of unknown format"
          (.errorString "decoded address is of unknown format"))) :=
  ⟨(C5_address_decode_error (exampleEnv alwaysMatch)
      ⟨"bc1pead7k9rdu4ged9q7qt2hqcxr6sx2jvxp7z86tqa8a9tncct657dq6cn4y71", "hello world", "?"⟩
      MainNetParams 0 (.errorString "checksum mismatch") (by rfl)).1,
   (C5_address_decode_error (exampleEnv alwaysMatch) ⟨"INVALID", "hello world", "?"⟩
      MainNetParams 0 (.errorString "decoded address is of unknown format") (by rfl)).1⟩

/-- C6 as stated fails for the base64 decoder of Go: a newline appended to the
valid 88-character signature is ignored by the decoder (no error at all), and
a newline followed by `a` gives `CorruptInputError` at offset 89, not 88. -/
theorem C6_counterexample :
    StdEncoding_DecodeString (taprootMessage.Signature ++ "\n") = (27 :: taprootSignatureRS, none) ∧
    newlineMessage.Signature = taprootMessage.Signature ++ "\na" ∧
    (stringBytes taprootMessage.Signature).length = 88 ∧
    VerifyWithChain (exampleEnv alwaysMatch) 1 newlineMessage MainNetParams
      = some (false, some (.CorruptInputError 89)) := by
  decide

/-- C6 amended: when the address decodes and the base64 decoder refuses the
signature text with error `e`, `VerifyWithChain` returns `false` and `e`
itself, not wrapped, in a single activation (no retry); in particular, with
the decoder of Go, a signature text made of a text of 88 bytes that decodes to
65 bytes followed by extra characters of which the first is neither a line
feed nor a carriage return gives `CorruptInputError` at offset 88. -/
theorem C6_base64_error (env : Env) (sm : SignedMessage) (net : Params) (budget : Nat)
    (address : Address)
    (haddr : env.DecodeAddress sm.Address net = .ok address) :
    (∀ (bytes : List Nat) (e : GoError), env.DecodeString sm.Signature = (bytes, some e) →
      VerifyWithChain env (budget + 1) sm net = some (false, some e) ∧
      activations env (budget + 1) sm net 0 = [0]) ∧
    (∀ (valid extra : String) (out : List Nat) (c : Nat) (more : List Nat),
      env.DecodeString = StdEncoding_DecodeString →
      sm.Signature = valid ++ extra →
      (stringBytes valid).length = 88 →
      StdEncoding_DecodeString valid = (out, none) → out.length = 65 →
      stringBytes extra = c :: more → c ≠ 10 → c ≠ 13 →
      VerifyWithChain env (budget + 1) sm net
        = some (false, some (.CorruptInputError 88))) := by
  have hfirst : ∀ (bytes : List Nat) (e : GoError),
      env.DecodeString sm.Signature = (bytes, some e) →
      VerifyWithChain env (budget + 1) sm net = some (false, some e) ∧
      activations env (budget + 1) sm net 0 = [0] := fun bytes e hsig =>
    VerifyBTCSignature_of_ret (body_of_early (pipeline_of_base64_error haddr hsig 0)) budget
  refine ⟨hfirst, ?_⟩
  intro valid extra out c more hdec hsm hlen hok hout hextra hc1 hc2
  have h := DecodeString_appended valid extra out c more hlen hok hout hextra (by omega)
  have hsig : env.DecodeString sm.Signature
      = ((StdEncoding_DecodeString (valid ++ extra)).1, some (.CorruptInputError 88)) := by
    rw [hdec, hsm, ← h]
  exact (hfirst _ _ hsig).1

/-- C6 at the signature of `TestVerifyWrongSignature` for the mainnet taproot
address: the valid signature followed by `aa`. -/
theorem C6_base64_error_witness :
    VerifyWithChain (exampleEnv alwaysMatch) 1 garbledMessage MainNetParams
      = some (false, some (.CorruptInputError 88)) :=
  (C6_base64_error (exampleEnv alwaysMatch) garbledMessage MainNetParams 0
    (.AddressTaproot "bc" [207, 91, 235, 20, 109, 229, 81, 150, 148, 30, 2, 213, 112, 96,
      195, 212, 12, 169, 48, 193, 240, 143, 165, 131, 167, 233, 87, 60, 97, 122, 167, 154])
    (by rfl)).2 taprootMessage.Signature "aa" (27 :: taprootSignatureRS) 97 [97]
    rfl (by decide) (by decide) (by decide) (by decide) (by decide) (by decide) (by decide)

/-! ## Shape of the result -/

/-- A pair returned by one activation has `false` next to an error. -/
theorem body_ret_shape {env : Env} {sm : SignedMessage} {net : Params} {rangedFlag : Nat}
    {ok : Bool} {err : Option GoError}
    (h : VerifyBTCSignature_body env sm net rangedFlag = .ret ok err) :
    (err ≠ none → ok = false) ∧ (ok = true → err = none) := by
  unfold VerifyBTCSignature_body at h
  split at h <;> simp_all

/-- C7: whenever `VerifyBTCSignature` returns, a non-nil error comes with
`verified = false`, and `verified = true` comes with a nil error. -/
theorem C7_error_excludes_verified (env : Env) (budget : Nat) (sm : SignedMessage)
    (net : Params) (rangedFlag : Nat) (ok : Bool) (err : Option GoError)
    (h : VerifyBTCSignature env budget sm net rangedFlag = some (ok, err)) :
    (err ≠ none → ok = false) ∧ (ok = true → err = none) := by
  induction budget generalizing rangedFlag with
  | zero => simp [VerifyBTCSignature] at h
  | succ n ih =>
    rw [VerifyBTCSignature_succ] at h
    cases hb : VerifyBTCSignature_body env sm net rangedFlag with
    | ret ok2 err2 =>
      simp only [hb, Option.some.injEq, Prod.mk.injEq] at h
      obtain ⟨h1, h2⟩ := h
      subst h1 h2
      exact body_ret_shape hb
    | call r =>
      simp only [hb] at h
      exact ih r h

/-- C7 at a call that returns an error (a signature of five bytes) and at a
call that returns `true` after a retry (validation reporting a mismatch at
flag 31 and accepting flag 32). -/
theorem C7_error_excludes_verified_witness :
    (VerifyBTCSignature (exampleEnv alwaysMatch) 1 shortMessage MainNetParams 0
        = some (false, some (.errorString "wrong signature length: 5 instead of 65")) ∧
      (some (GoError.errorString "wrong signature length: 5 instead of 65") ≠ none →
        false = false)) ∧
    (VerifyBTCSignature (exampleEnv mismatchAt31) 2 legacyMessage MainNetParams 0
        = some (true, none) ∧
      (true = true → (none : Option GoError) = none)) :=
  ⟨⟨by decide, (C7_error_excludes_verified (exampleEnv alwaysMatch) 1 shortMessage
      MainNetParams 0 false _ (by decide)).1⟩,
   ⟨by decide, (C7_error_excludes_verified (exampleEnv mismatchAt31) 2 legacyMessage
      MainNetParams 0 true none (by decide)).2⟩⟩

/-! ## The recovery flag -/

/-- The header written for a supported address kind: the base of the kind plus
the offset, in byte arithmetic, in front of the untouched rest. -/
theorem resolveHeader_eq {address : Address} {base : Nat} (h : baseFlag address = some base)
    (b : Nat) (rest : List Nat) (rangedFlag : Nat) :
    resolveHeader address (b :: rest) rangedFlag = some ((base + rangedFlag) % 256 :: rest) := by
  simp [resolveHeader, h]

/-- C8: when the address decodes to one of the four supported kinds, the
signature decodes to 65 bytes and the offset is 0 or 1, the recovery flag that
`VerifyBTCSignature` resolves is `base` plus the offset, where `base` is 31
for P2PKH, P2SH-P2WPKH and P2WPKH and 27 for P2TR. This is the flag that is
looked up in `All()` and printed in the error of the lookup, the header byte
handed to key recovery and to the signature check (but for the reset of the
hardware-wallet flags), and the flag handed to `GeneratePublicKeyHash` and to
the validation of the address kind. It is one of 27, 28, 31, 32, lies in
27-34 and is below 35, and every activation reached from `VerifyWithChain`
has offset 0 or 1. -/
theorem C8_resolved_recovery_flag (env : Env) (sm : SignedMessage) (net : Params)
    (rangedFlag budget : Nat) (address : Address) (bytes : List Nat) (base : Nat)
    (haddr : env.DecodeAddress sm.Address net = .ok address)
    (hsig : env.DecodeString sm.Signature = (bytes, none))
    (hlen : bytes.length = 65)
    (hkind :
      (((∃ hash netID, address = .AddressPubKeyHash hash netID) ∨
        (∃ hash netID, address = .AddressScriptHash hash netID) ∨
        (∃ hrp program, address = .AddressWitnessPubKeyHash hrp program)) ∧ base = 31) ∨
      ((∃ hrp program, address = .AddressTaproot hrp program) ∧ base = 27))
    (hoff : rangedFlag = 0 ∨ rangedFlag = 1) :
    (Int.ofNat (base + rangedFlag) ∈ [(27 : Int), 28, 31, 32] ∧
      27 ≤ Int.ofNat (base + rangedFlag) ∧ Int.ofNat (base + rangedFlag) ≤ 34 ∧
      ¬ 35 ≤ Int.ofNat (base + rangedFlag)) ∧
    (Contains env.All (Int.ofNat (base + rangedFlag)) = false →
      VerifyBTCSignature env (budget + 1) sm net rangedFlag
        = some (false, some (.errorString
            ("invalid recovery flag: " ++ toString (Int.ofNat (base + rangedFlag)))))) ∧
    (∀ r, pipeline env sm net rangedFlag = .validated r →
      Contains env.All (Int.ofNat (base + rangedFlag)) = true ∧
      ∃ header key comp,
        header =
          (if Contains env.Trezor (Int.ofNat (base + rangedFlag)) then
            ((27 + env.GetKeyID (Int.ofNat (base + rangedFlag))) % 256).toNat
          else base + rangedFlag) ∧
        env.RecoverCompact (header :: bytes.tail)
            (env.DoubleHashB (stringBytes (env.CreateMagicMessage sm.Message)))
          = .ok (key, comp) ∧
        (env.ShouldBeCompressed (Int.ofNat (base + rangedFlag)) = comp ∨
          Contains env.Trezor (Int.ofNat (base + rangedFlag)) = true) ∧
        env.Verify (header :: bytes.tail) key
            (env.DoubleHashB (stringBytes (env.CreateMagicMessage sm.Message))) = none ∧
        ((∃ hash netID, address = .AddressPubKeyHash hash netID ∧
            r = env.ValidateP2PKH (Int.ofNat (base + rangedFlag))
              (GeneratePublicKeyHash env (Int.ofNat (base + rangedFlag)) key) address net) ∨
          (∃ hash netID, address = .AddressScriptHash hash netID ∧
            r = env.ValidateP2SH (Int.ofNat (base + rangedFlag))
              (GeneratePublicKeyHash env (Int.ofNat (base + rangedFlag)) key) address net) ∨
          (∃ hrp program, address = .AddressWitnessPubKeyHash hrp program ∧
            r = env.ValidateP2WPKH (Int.ofNat (base + rangedFlag))
              (GeneratePublicKeyHash env (Int.ofNat (base + rangedFlag)) key) address net) ∨
          (∃ hrp program, address = .AddressTaproot hrp program ∧
            r = env.ValidateP2TR (Int.ofNat (base + rangedFlag)) key address net))) ∧
    (∀ r ∈ activations env budget sm net 0, r = 0 ∨ r = 1) := by
  obtain ⟨b, rest, rfl⟩ : ∃ b rest, bytes = b :: rest := by
    cases bytes with
    | nil => simp at hlen
    | cons b rest => exact ⟨b, rest, rfl⟩
  have hsmall : (base + rangedFlag) % 256 = base + rangedFlag := by
    apply Nat.mod_eq_of_lt
    rcases hkind with ⟨_, hb⟩ | ⟨_, hb⟩ <;> rcases hoff with ho | ho <;> omega
  have hbase : baseFlag address = some base := by
    rcases hkind with ⟨h | h | h, hb⟩ | ⟨h, hb⟩
    · obtain ⟨x, y, rfl⟩ := h; subst hb; rfl
    · obtain ⟨x, y, rfl⟩ := h; subst hb; rfl
    · obtain ⟨x, y, rfl⟩ := h; subst hb; rfl
    · obtain ⟨x, y, rfl⟩ := h; subst hb; rfl
  have hres : resolveHeader address (b :: rest) rangedFlag
      = some ((base + rangedFlag) :: rest) := by
    rw [resolveHeader_eq hbase, hsmall]
  have hflag : recoveryFlagOf ((base + rangedFlag) :: rest) = Int.ofNat (base + rangedFlag) :=
    rfl
  refine ⟨?_, ?_, ?_, ?_⟩
  · rcases hkind with ⟨_, hb⟩ | ⟨_, hb⟩ <;> rcases hoff with ho | ho <;> subst hb ho <;>
      decide
  · intro hall
    have hp : pipeline env sm net rangedFlag = .early (.errorString
        ("invalid recovery flag: " ++ toString (Int.ofNat (base + rangedFlag)))) := by
      unfold pipeline
      rw [haddr]
      dsimp only
      rw [hsig]
      dsimp only
      rw [if_neg (by simp [ExpectedSignatureLength, hlen]), hres]
      dsimp only
      rw [hflag, hall]
      rfl
    exact (VerifyBTCSignature_of_ret (body_of_early hp) budget).1
  · intro r h
    unfold pipeline at h
    rw [haddr] at h
    dsimp only at h
    rw [hsig] at h
    dsimp only at h
    rw [if_neg (by simp [ExpectedSignatureLength, hlen])] at h
    rw [hres] at h
    dsimp only at h
    rw [hflag] at h
    have hL : (if Contains env.Trezor (Int.ofNat (base + rangedFlag)) = true then
          ((base + rangedFlag) :: rest).set 0
            ((27 + env.GetKeyID (Int.ofNat (base + rangedFlag))) % 256).toNat
        else (base + rangedFlag) :: rest)
        = (if Contains env.Trezor (Int.ofNat (base + rangedFlag)) = true then
            ((27 + env.GetKeyID (Int.ofNat (base + rangedFlag))) % 256).toNat
          else base + rangedFlag) :: rest := by
      split <;> rfl
    rw [hL] at h
    split at h
    · cases h
    · rename_i hall
      split at h
      · cases h
      · rename_i key comp hrec
        split at h
        · cases h
        · rename_i hcomp
          split at h
          · cases h
          · rename_i hver
            refine ⟨by simpa using hall, _, key, comp, rfl, hrec, ?_, hver, ?_⟩
            · by_cases ht : Contains env.Trezor (Int.ofNat (base + rangedFlag)) = true
              · exact Or.inr ht
              · left
                cases hs : env.ShouldBeCompressed (Int.ofNat (base + rangedFlag)) <;>
                  cases comp <;> simp_all
            · split at h
              · simp only [Pass.validated.injEq] at h
                exact Or.inl ⟨_, _, rfl, h.symm⟩
              · simp only [Pass.validated.injEq] at h
                exact Or.inr (Or.inl ⟨_, _, rfl, h.symm⟩)
              · simp only [Pass.validated.injEq] at h
                exact Or.inr (Or.inr (Or.inl ⟨_, _, rfl, h.symm⟩))
              · simp only [Pass.validated.injEq] at h
                exact Or.inr (Or.inr (Or.inr ⟨_, _, rfl, h.symm⟩))
              · cases h
  · intro r hr
    have := activations_le_one env sm net budget 0 (by omega) r hr
    omega

/-- C8 at the taproot address of `verify_test.go`, the signature of
`mismatchedMessage` and offset 1: the pass reaches the validation, so the flag
that was looked up in `All()` is 27 + 1, and the activations within a budget
of three calls have offsets 0 and 1 only. -/
theorem C8_resolved_recovery_flag_witness :
    Contains (exampleEnv alwaysMismatch).All (Int.ofNat (27 + 1)) = true ∧
    (∀ r ∈ activations (exampleEnv alwaysMismatch) 3 mismatchedMessage MainNetParams 0,
      r = 0 ∨ r = 1) :=
  have h := C8_resolved_recovery_flag (exampleEnv alwaysMismatch) mismatchedMessage
    MainNetParams 1 3
    (.AddressTaproot "bc" [207, 91, 235, 20, 109, 229, 81, 150, 148, 30, 2, 213, 112, 96,
      195, 212, 12, 169, 48, 193, 240, 143, 165, 131, 167, 233, 87, 60, 97, 122, 167, 154])
    (StdEncoding_DecodeString mismatchedMessage.Signature).1 27
    (by rfl) (by decide) (by decide) (Or.inr ⟨⟨_, _, rfl⟩, rfl⟩) (Or.inr rfl)
  ⟨(h.2.2.1 (false, some (.errorString "address mismatched")) (by decide)).1, h.2.2.2⟩

/-! ## The header byte of the signer -/

/-- Two signatures that differ in the header byte only go through the same pipeline. -/
theorem pipeline_header_irrelevant {env : Env} {sm1 sm2 : SignedMessage} {net : Params}
    {b1 b2 : List Nat}
    (haddr : sm1.Address = sm2.Address) (hmsg : sm1.Message = sm2.Message)
    (h1 : env.DecodeString sm1.Signature = (b1, none))
    (h2 : env.DecodeString sm2.Signature = (b2, none))
    (hl1 : b1.length = 65) (hl2 : b2.length = 65) (htail : b1.tail = b2.tail)
    (rangedFlag : Nat) :
    pipeline env sm1 net rangedFlag = pipeline env sm2 net rangedFlag := by
  cases b1 with
  | nil => simp at hl1
  | cons x t1 =>
    cases b2 with
    | nil => simp at hl2
    | cons y t2 =>
      simp only [List.tail_cons] at htail
      subst htail
      have hres : ∀ address, resolveHeader address (x :: t1) rangedFlag
          = resolveHeader address (y :: t1) rangedFlag := by
        intro address
        simp [resolveHeader]
      unfold pipeline
      rw [haddr, hmsg, h1, h2]
      cases env.DecodeAddress sm2.Address net with
      | error e => rfl
      | ok address =>
        simp only [List.length_cons] at hl1 hl2 ⊢
        simp only [hres address]

/-- C10: two signed messages with the same address and message whose decoded
signatures have 65 bytes and differ at most in the header byte give the same
result of `VerifyBTCSignature`, for every network, offset and budget of nested
calls. -/
theorem C10_header_byte_ignored (env : Env) (sm1 sm2 : SignedMessage) (net : Params)
    (rangedFlag budget : Nat) (b1 b2 : List Nat)
    (haddr : sm1.Address = sm2.Address) (hmsg : sm1.Message = sm2.Message)
    (h1 : env.DecodeString sm1.Signature = (b1, none))
    (h2 : env.DecodeString sm2.Signature = (b2, none))
    (hl1 : b1.length = 65) (hl2 : b2.length = 65) (htail : b1.tail = b2.tail) :
    VerifyBTCSignature env budget sm1 net rangedFlag
      = VerifyBTCSignature env budget sm2 net rangedFlag := by
  induction budget generalizing rangedFlag with
  | zero => rfl
  | succ n ih =>
    have hbody : VerifyBTCSignature_body env sm1 net rangedFlag
        = VerifyBTCSignature_body env sm2 net rangedFlag := by
      unfold VerifyBTCSignature_body
      rw [pipeline_header_irrelevant haddr hmsg h1 h2 hl1 hl2 htail rangedFlag]
    rw [VerifyBTCSignature_succ, VerifyBTCSignature_succ, hbody]
    cases VerifyBTCSignature_body env sm2 net rangedFlag with
    | ret ok err => rfl
    | call r => exact ih r

/-- C10 at the taproot signature of `verify_test.go` and the same signature
with header byte 200 instead of 27. -/
theorem C10_header_byte_ignored_witness :
    VerifyBTCSignature (exampleEnv alwaysMatch) 2 taprootMessage MainNetParams 0
      = VerifyBTCSignature (exampleEnv alwaysMatch) 2 taprootMessageOtherHeader MainNetParams 0 :=
  C10_header_byte_ignored (exampleEnv alwaysMatch) taprootMessage taprootMessageOtherHeader
    MainNetParams 0 2 (27 :: taprootSignatureRS) (200 :: taprootSignatureRS)
    (by decide) (by decide) (by decide) (by decide) (by decide) (by decide) (by decide)

end Signature
